import Mathlib

/-!
Verification development for the ch-grafana-cache core: a shallow embedding of
the substitution engine (src/variables.rs), the deduplicating query client
(src/clickhouse.rs) and the variable resolver / combination enumerator
(src/grafana.rs), together with theorems settling the specification claims.

Network effects are modelled by an explicit oracle (`Net`) mapping query text
to responses, and the client by an explicit state (`ClientState`) carrying the
result cache plus a log of the query texts actually sent on each endpoint, so
that claims about "number of network calls" become claims about log growth.
-/

namespace ChGrafanaCache

/-! ## Assignments (src/variables.rs: `VariablesAssignment`)

Rust: `pub type VariablesAssignment<'a> = HashMap<&'a str, String>;`
embedded as an association list with first-match lookup and
replace-on-insert, matching HashMap observational behaviour. -/

/-- Generic association list lookup (first match), embedding HashMap get. -/
def alistGet {α : Type} : List (String × α) → String → Option α
  | [], _ => none
  | (k, v) :: rest, name => if k = name then some v else alistGet rest name

/-- Embedding of `VariablesAssignment` from src/variables.rs. -/
abbrev VA : Type := List (String × String)

/-- Lookup of a variable value, embedding `HashMap::get`. -/
def VAget (m : VA) (name : String) : Option String :=
  alistGet m name

/-- Insert, embedding `HashMap::insert` (replaces any previous binding). -/
def VAinsert (m : VA) (k : String) (v : String) : VA :=
  (k, v) :: (m : List (String × String)).filter (fun p => p.1 != k)

/-- Keys of an assignment. -/
def VAkeys (m : VA) : List String :=
  (m : List (String × String)).map Prod.fst

/-! ## Substitution engine (src/variables.rs)

The regex is `\$\{(.*?)\}`: a token starts with the two characters dollar and
open brace, its identifier is the shortest run of non-newline characters up to
the next closing brace (Rust regex `.` does not match a newline), and the
leftmost match wins. `replace_all` advances past each replacement without
rescanning the substituted text; when no token starts at a position the scan
advances by one character. -/

/-- Embedding of `SubsError` from src/variables.rs. -/
inductive SubsError where
  | NotFound (name : String)
deriving DecidableEq

/-- Given the characters following the two-character token opener, return the
identifier characters up to the first closing brace together with the rest of
the input, or `none` when a newline or the end of input comes first (in which
case the regex `\$\{(.*?)\}` has no match starting at that opener). -/
def splitToken : List Char → Option (List Char × List Char)
  | [] => none
  | c :: rest =>
    if c = '}' then some ([], rest)
    else if c = '\n' then none
    else (splitToken rest).map (fun p => (c :: p.1, p.2))

/-- Embedding of the `VARIABLE_RE.replace_all` scan in `substitute_variables`
(src/variables.rs lines 34-41): collects the substitution errors in scan order
and builds the output text, inserting the literal sentinel `ERROR` for a
missing identifier. Structural recursion on a fuel argument; the fuel is
always at least the input length at every call site, so the fuel-exhaustion
branch is never taken. -/
def scanSubstF (vars : VA) : Nat → List Char → List SubsError × List Char
  | _, [] => ([], [])
  | 0, s => ([], s)
  | fuel + 1, c1 :: rest1 =>
    match rest1 with
    | [] => ([], [c1])
    | c2 :: rest =>
      if c1 = '$' ∧ c2 = '{' then
        match splitToken rest with
        | some (ident, r) =>
          let p := scanSubstF vars fuel r
          match VAget vars (String.mk ident) with
          | some v => (p.1, v.data ++ p.2)
          | none => (SubsError.NotFound (String.mk ident) :: p.1, "ERROR".data ++ p.2)
        | none =>
          let p := scanSubstF vars fuel (c2 :: rest)
          (p.1, c1 :: p.2)
      else
        let p := scanSubstF vars fuel (c2 :: rest)
        (p.1, c1 :: p.2)

/-- Embedding of `substitute_variables` (src/variables.rs lines 28-49): runs
the single-pass scan and fails with the aggregated error list when any token
identifier was missing, otherwise returns the substituted text. The Rust
function formats the collected `SubsError`s into one `anyhow` error message;
the embedding keeps the structured list. -/
def substitute_variables (sql : String) (vars : VA) : Except (List SubsError) String :=
  let p := scanSubstF vars sql.data.length sql.data
  if p.1.isEmpty then Except.ok (String.mk p.2) else Except.error p.1

/-! ### Specification-side template decomposition

Modelled from the spec words of section 4.1: a template is decomposed into
literal characters and delimiter-bounded tokens; substitution replaces each
token whose identifier is present with its value verbatim (no rescanning) and
the missing identifiers are exactly the token identifiers absent from the
assignment, in scan order. -/

/-- A template segment: a literal character, or a token with its identifier. -/
inductive Seg where
  | lit (c : Char)
  | tok (name : String)
deriving DecidableEq

/-- Specification-side decomposition of a template into segments, with the
same token syntax as the source regex (fuel-structural like `scanSubstF`). -/
def parseSegsF : Nat → List Char → List Seg
  | _, [] => []
  | 0, s => s.map Seg.lit
  | fuel + 1, c1 :: rest1 =>
    match rest1 with
    | [] => [Seg.lit c1]
    | c2 :: rest =>
      if c1 = '$' ∧ c2 = '{' then
        match splitToken rest with
        | some (ident, r) => Seg.tok (String.mk ident) :: parseSegsF fuel r
        | none => Seg.lit c1 :: parseSegsF fuel (c2 :: rest)
      else Seg.lit c1 :: parseSegsF fuel (c2 :: rest)

/-- Decomposition of a template string into segments. -/
def parseTemplate (sql : String) : List Seg :=
  parseSegsF sql.data.length sql.data

/-- Token identifiers of the segments that are absent from the assignment, in
scan order (duplicates kept). -/
def segMissingNames (vars : VA) : List Seg → List String
  | [] => []
  | Seg.lit _ :: rest => segMissingNames vars rest
  | Seg.tok n :: rest =>
    match VAget vars n with
    | some _ => segMissingNames vars rest
    | none => n :: segMissingNames vars rest

/-- Specification-side rendering: literals kept, each token replaced by the
assignment value verbatim (the inserted value is never rescanned), missing
tokens replaced by the sentinel. -/
def segRender (vars : VA) : List Seg → List Char
  | [] => []
  | Seg.lit c :: rest => c :: segRender vars rest
  | Seg.tok n :: rest =>
    (match VAget vars n with
     | some v => v.data
     | none => "ERROR".data) ++ segRender vars rest

/-- Identifiers of the template tokens missing from the assignment. -/
def missingIdents (sql : String) (vars : VA) : List String :=
  segMissingNames vars (parseTemplate sql)

/-- The fully substituted template (all tokens resolvable). -/
def renderResolved (sql : String) (vars : VA) : String :=
  String.mk (segRender vars (parseTemplate sql))

/-! ## Deduplicating query client (src/clickhouse.rs)

The HTTP transport is abstracted by an oracle `Net`; the mutable client state
(`cache` behind the mutex, in the source) is threaded explicitly, extended
with a log of query texts sent on each endpoint so that network calls are
observable. -/

/-- Embedding of `ResultRow` from src/clickhouse.rs. -/
structure ResultRow where
  cols : List String
deriving DecidableEq

/-- Embedding of `ResultRow::n_cols`. -/
def ResultRow.n_cols (r : ResultRow) : Nat :=
  r.cols.length

/-- Network oracle: what the database answers for each query text. `tsv` is
the tabular endpoint (response body text); `native` is the binary endpoint
(stream of byte chunks, each chunk itself fallible, as in `bytes_stream`). -/
structure Net where
  tsv : String → Except String String
  native : String → Except String (List (Except String (List Nat)))

/-- Client state: the result cache of `ChClient` plus the log of query texts
actually sent over the network on each endpoint. -/
structure ClientState where
  cache : List (String × List ResultRow)
  tsvCalls : List String
  nativeCalls : List String
deriving DecidableEq

/-- Splitting a character list at a separator character, embedding the Rust
`str::split` (a separator at the end yields a trailing empty segment). -/
def splitOnChar (sep : Char) : List Char → List (List Char)
  | [] => [[]]
  | c :: rest =>
    if c = sep then [] :: splitOnChar sep rest
    else
      match splitOnChar sep rest with
      | [] => [[c]]
      | g :: gs => (c :: g) :: gs

/-- Drop one trailing carriage return, as Rust `str::lines` does for each
newline-terminated line. -/
def stripCR (l : List Char) : List Char :=
  if l.getLast? = some '\r' then l.dropLast else l

/-- Embedding of Rust `str::lines`: split at newlines, strip one carriage
return from each newline-terminated line, and do not yield a final empty
line after a trailing newline. -/
def rustLines (s : String) : List (List Char) :=
  let parts := splitOnChar '\n' s.data
  match parts.getLast? with
  | none => []
  | some last => parts.dropLast.map stripCR ++ (if last.isEmpty then [] else [last])

/-- Embedding of the response parsing in `ChClient::query` (src/clickhouse.rs
lines 114-121): each line becomes a row by splitting at the tab character. -/
def parseRows (text : String) : List ResultRow :=
  (rustLines text).map (fun l => ⟨(splitOnChar '\t' l).map String.mk⟩)

/-- Embedding of the column-count validation in `ChClient::query`
(src/clickhouse.rs lines 122-127): all rows must have the column count of the
first row; an empty result passes. -/
def consistentRows (rows : List ResultRow) : Bool :=
  match rows with
  | [] => true
  | r0 :: _ => rows.all (fun r => r.n_cols == r0.n_cols)

/-- Lookup in the client result cache. -/
def lookupRows (cache : List (String × List ResultRow)) (text : String) :
    Option (List ResultRow) :=
  alistGet cache text

/-- Error message of the `anyhow::ensure!` in `ChClient::query`. -/
def inconsistentMsg : String := "Inconsistent column sizes"

/-- Record one request sent on the tabular endpoint. -/
def logTsv (st : ClientState) (query : String) : ClientState :=
  { st with tsvCalls := st.tsvCalls ++ [query] }

/-- Record one request sent on the native endpoint. -/
def logNative (st : ClientState) (query : String) : ClientState :=
  { st with nativeCalls := st.nativeCalls ++ [query] }

/-- Store rows in the result cache under the exact query text, embedding
`cache.insert(query, rows)` (the new entry shadows any earlier one under the
first-match lookup). -/
def insertRows (st : ClientState) (query : String) (rows : List ResultRow) :
    ClientState :=
  { st with cache := (query, rows) :: st.cache }

/-- Embedding of `ChClient::query` (src/clickhouse.rs lines 103-133): with
caching enabled, a cache hit returns a clone of the stored rows without
touching the network; otherwise the query text is sent on the tabular
endpoint (logged in `tsvCalls`), the response is parsed into rows, the column
counts are validated, and with caching enabled the rows are stored under the
exact query text. -/
def ChClient.query (net : Net) (query : String) (cache : Bool) (st : ClientState) :
    Except String (List ResultRow) × ClientState :=
  match (if cache then lookupRows st.cache query else none) with
  | some resp => (Except.ok resp, st)
  | none =>
    match net.tsv query with
    | Except.error e => (Except.error e, logTsv st query)
    | Except.ok body =>
      if consistentRows (parseRows body) then
        if cache then
          (Except.ok (parseRows body), insertRows (logTsv st query) query (parseRows body))
        else (Except.ok (parseRows body), logTsv st query)
      else (Except.error inconsistentMsg, logTsv st query)

/-- Consuming the streamed response chunks, embedding the `while let` loop of
`ChClient::query_native`: totals the chunk byte lengths, failing on the first
failed chunk. -/
def consumeStream : List (Except String (List Nat)) → Except String Nat
  | [] => Except.ok 0
  | chunk :: rest =>
    match chunk with
    | Except.error e => Except.error e
    | Except.ok bs =>
      match consumeStream rest with
      | Except.error e => Except.error e
      | Except.ok n => Except.ok (bs.length + n)

/-- Embedding of `ChClient::query_native` (src/clickhouse.rs lines 88-100):
always sends the query text on the native endpoint (logged in `nativeCalls`),
never consults the result cache, and on success returns the total byte count
of the consumed stream. -/
def ChClient.query_native (net : Net) (query : String) (st : ClientState) :
    Except String Nat × ClientState :=
  match net.native query with
  | Except.error e => (Except.error e, logNative st query)
  | Except.ok chunks => (consumeStream chunks, logNative st query)

/-! ## Dashboard data model and variable resolution (src/grafana.rs) -/

/-- Embedding of `DataSource` from src/grafana.rs. -/
structure DataSource where
  type : String
deriving DecidableEq

/-- Embedding of `VariableOption` from src/grafana.rs. -/
structure VariableOption where
  value : String
deriving DecidableEq

/-- Embedding of `Variable` from src/grafana.rs. -/
structure Variable where
  name : String
  query : String
  options : List VariableOption
  datasource : Option DataSource
deriving DecidableEq

/-- Embedding of `Target` from src/grafana.rs. -/
structure Target where
  raw_sql : Option String
deriving DecidableEq

/-- Embedding of `Panel` from src/grafana.rs. -/
structure Panel where
  title : String
  id : Nat
  targets : List Target
  type : String
deriving DecidableEq

/-- Embedding of `Panel::sql`. -/
def Panel.sql (p : Panel) : List String :=
  p.targets.filterMap Target.raw_sql

/-- Embedding of `TemplateList` from src/grafana.rs. -/
structure TemplateList where
  list : List Variable
deriving DecidableEq

/-- Embedding of `Dashboard` from src/grafana.rs. -/
structure Dashboard where
  title : String
  panels : List Panel
  templating : TemplateList
deriving DecidableEq

/-- Embedding of `Dashboard::variables`. -/
def Dashboard.variables (d : Dashboard) : List Variable :=
  d.templating.list

/-- Names of the dashboard variables. -/
def Dashboard.variableNames (d : Dashboard) : List String :=
  d.variables.map Variable.name

/-- True when the prefix list heads the other list. -/
def headedBy : List Char → List Char → Bool
  | [], _ => true
  | _ :: _, [] => false
  | a :: as, b :: bs => a == b && headedBy as bs

/-- Substring containment on character lists. -/
def containsList (pat : List Char) : List Char → Bool
  | [] => headedBy pat []
  | c :: rest => headedBy pat (c :: rest) || containsList pat rest

/-- Embedding of Rust `str::contains` with a string pattern. -/
def strContainsStr (s pat : String) : Bool :=
  containsList pat.data s.data

/-- Embedding of `Variable::is_clickhouse_ds` (src/grafana.rs lines 144-148):
the datasource, when present, is a clickhouse one when its type string
contains "clickhouse". -/
def Variable.is_clickhouse_ds (v : Variable) : Bool :=
  match v.datasource with
  | some ds => strContainsStr ds.type "clickhouse"
  | none => false

/-- Error message of the `anyhow::ensure!` shape check in
`Variable::get_variants` (the source `ensure!` has no message and renders the
stringified condition; the exact text is irrelevant to the claims). -/
def ensureShapeMsg : String :=
  "Condition failed: at most one result column"

/-- Error message of the `anyhow::bail!` for an unsupported datasource (the
source formats the whole variable with its Debug instance). -/
def unsupportedMsg (v : Variable) : String :=
  "Unsupported variable data source " ++ v.name

/-- Separator join used when formatting the aggregated substitution error. -/
def joinSep (sep : String) : List String → String
  | [] => ""
  | [x] => x
  | x :: xs => x ++ sep ++ joinSep sep xs

/-- Rendering of the aggregated substitution error of `substitute_variables`
(src/variables.rs lines 42-47), as it crosses into `anyhow` in
`Variable::get_variants`. -/
def formatSubsErrors (es : List SubsError) : String :=
  "Encountered substitution errors:\n  " ++
    joinSep "\n  " (es.map (fun e => match e with
      | SubsError.NotFound n => "Variable " ++ n ++ " not found"))

/-- Embedding of `Variable::get_variants` (src/grafana.rs lines 150-179).
A clickhouse-datasource variable substitutes the assignment into its query
template, runs the substituted text through the cached tabular query, then
runs the original unsubstituted template through `query_native` for the
server-side cache, checks that the first row has at most one column, and
returns the concatenation of the row columns. A variable without datasource
returns its static option values. Any other datasource is a fatal error. -/
def Variable.get_variants (net : Net) (v : Variable) (vars : VA) (st : ClientState) :
    Except String (List String) × ClientState :=
  match v.datasource with
  | some _ =>
    if v.is_clickhouse_ds then
      match substitute_variables v.query vars with
      | Except.error es => (Except.error (formatSubsErrors es), st)
      | Except.ok query =>
        match ChClient.query net query true st with
        | (Except.error e, st1) => (Except.error e, st1)
        | (Except.ok resp, st1) =>
          match ChClient.query_native net v.query st1 with
          | (Except.error e, st2) => (Except.error e, st2)
          | (Except.ok _, st2) =>
            if (resp.head?.map ResultRow.n_cols).getD 0 ≤ 1 then
              (Except.ok (resp.flatMap ResultRow.cols), st2)
            else (Except.error ensureShapeMsg, st2)
    else (Except.error (unsupportedMsg v), st)
  | none => (Except.ok (v.options.map VariableOption.value), st)

/-! ## Override configuration and combination enumeration (src/grafana.rs) -/

/-- Embedding of `VariablesConfig` from src/grafana.rs: the override mapping
from variable name to explicit candidate list. -/
structure VariablesConfig where
  entries : List (String × List String)
deriving DecidableEq

/-- Override lookup, embedding `variables_config.0.get(&var.name)`. -/
def VariablesConfig.get (cfg : VariablesConfig) (name : String) : Option (List String) :=
  alistGet cfg.entries name

/-- Keys of the override configuration. -/
def VariablesConfig.keys (cfg : VariablesConfig) : List String :=
  cfg.entries.map Prod.fst

/-- Override keys that name no dashboard variable; `VariablesConfig::check`
(src/grafana.rs lines 13-27) logs one warning per such key. -/
def VariablesConfig.warnedKeys (cfg : VariablesConfig) (d : Dashboard) : List String :=
  cfg.keys.filter (fun k => !(d.variableNames.contains k))

/-- Embedding of `VariablesConfig::check` (src/grafana.rs lines 13-27): the
source only emits log warnings (for a non-empty configuration, and for each
key in `warnedKeys`) and always returns `Ok(())`; it never fails. -/
def VariablesConfig.check (_cfg : VariablesConfig) (_d : Dashboard) : Except String Unit :=
  Except.ok ()

/-- Candidate resolution for one variable inside the enumeration loop
(src/grafana.rs lines 73-81): an override list short-circuits; otherwise the
variable resolves through `get_variants`. -/
def variantsFor (net : Net) (cfg : VariablesConfig) (v : Variable) (a : VA)
    (st : ClientState) : Except String (List String) × ClientState :=
  match cfg.get v.name with
  | some l => (Except.ok l, st)
  | none => v.get_variants net a st

/-- Inner loop of `Dashboard::variables_combinations` (src/grafana.rs lines
69-87): for each current assignment, resolve the candidates of the variable
in the context of that assignment and emit one extended assignment per
candidate; a resolution failure aborts immediately. -/
def processAssignments (net : Net) (cfg : VariablesConfig) (v : Variable) :
    List VA → ClientState → Except String (List VA) × ClientState
  | [], st => (Except.ok [], st)
  | a :: rest, st =>
    match variantsFor net cfg v a st with
    | (Except.error e, st1) => (Except.error e, st1)
    | (Except.ok variants, st1) =>
      match processAssignments net cfg v rest st1 with
      | (Except.error e, st2) => (Except.error e, st2)
      | (Except.ok more, st2) =>
        (Except.ok (variants.map (fun val => VAinsert a v.name val) ++ more), st2)

/-- Outer loop of `Dashboard::variables_combinations`: variables processed
strictly in declaration order, each replacing the working list of assignments
by its extensions. -/
def processVariables (net : Net) (cfg : VariablesConfig) :
    List Variable → List VA → ClientState → Except String (List VA) × ClientState
  | [], combos, st => (Except.ok combos, st)
  | v :: vs, combos, st =>
    match processAssignments net cfg v combos st with
    | (Except.error e, st1) => (Except.error e, st1)
    | (Except.ok combos2, st1) => processVariables net cfg vs combos2 st1

/-- Embedding of `Dashboard::variables_combinations` (src/grafana.rs lines
50-92): the working list starts with one empty assignment. -/
def Dashboard.variables_combinations (net : Net) (d : Dashboard)
    (cfg : VariablesConfig) (st : ClientState) :
    Except String (List VA) × ClientState :=
  processVariables net cfg d.variables [([] : VA)] st

/-! ## Concrete fixtures

Small concrete oracles, variables and dashboards used by the witness and
counterexample theorems below. -/

/-- Network oracle answering one single-column row `x` on the tabular
endpoint and an empty stream on the native endpoint. -/
def cNet : Net :=
  { tsv := fun _ => Except.ok "x", native := fun _ => Except.ok [] }

/-- Network oracle answering one two-column row on the tabular endpoint. -/
def cNet2 : Net :=
  { tsv := fun _ => Except.ok "a\tb", native := fun _ => Except.ok [] }

/-- Network oracle answering rows with inconsistent column counts. -/
def netIncons : Net :=
  { tsv := fun _ => Except.ok "a\tb\nc", native := fun _ => Except.ok [] }

/-- Network oracle streaming two native chunks of 3 and 1 bytes. -/
def natNet : Net :=
  { tsv := fun _ => Except.error "unused",
    native := fun _ => Except.ok [Except.ok [10, 20, 30], Except.ok [40]] }

/-- A fresh client state: empty cache, no calls yet. -/
def st0 : ClientState := ⟨[], [], []⟩

/-- A clickhouse-datasource variable with a constant query template. -/
def cVar : Variable :=
  { name := "v", query := "SELECT 1", options := [],
    datasource := some ⟨"grafana-clickhouse-datasource"⟩ }

/-- A variable with an unsupported (non-clickhouse) datasource. -/
def vP : Variable :=
  { name := "p", query := "up", options := [], datasource := some ⟨"prometheus"⟩ }

/-- Override configuration supplying a list for `vP`. -/
def cfgP : VariablesConfig := ⟨[("p", ["z"])]⟩

/-- Override configuration supplying a list for `cVar`. -/
def cfgV : VariablesConfig := ⟨[("v", ["o1", "o2"])]⟩

/-- A dashboard with two static variables with 2 and 3 options. -/
def dStat : Dashboard :=
  ⟨"d", [], ⟨[⟨"a", "", [⟨"x"⟩, ⟨"y"⟩], none⟩,
              ⟨"b", "", [⟨"u"⟩, ⟨"v"⟩, ⟨"w"⟩], none⟩]⟩⟩

/-- Override configuration whose key names no variable of `cexDashboard`. -/
def cexConfig : VariablesConfig := ⟨[("ghost", ["1"])]⟩

/-- A dashboard with a single static variable named `a`. -/
def cexDashboard : Dashboard := ⟨"d", [], ⟨[⟨"a", "", [], none⟩]⟩⟩

/-! ## Theorems

Helper lemmas first, then one theorem per specification claim (with witness
or counterexample theorems as needed). -/

/-- All-literal segments have no missing identifiers. -/
theorem segMissingNames_lits (vars : VA) (s : List Char) :
    segMissingNames vars (s.map Seg.lit) = [] := by
  induction s with
  | nil => rfl
  | cons c rest ih => simpa [segMissingNames] using ih

/-- All-literal segments render to themselves. -/
theorem segRender_lits (vars : VA) (s : List Char) :
    segRender vars (s.map Seg.lit) = s := by
  induction s with
  | nil => rfl
  | cons c rest ih => simp [segRender, ih]

/-- The source scan computes exactly the missing identifiers and the rendering
of the segment decomposition, for every fuel value. -/
theorem scanSubstF_eq (vars : VA) :
    ∀ (fuel : Nat) (s : List Char),
      scanSubstF vars fuel s =
        ((segMissingNames vars (parseSegsF fuel s)).map SubsError.NotFound,
          segRender vars (parseSegsF fuel s)) := by
  intro fuel
  induction fuel with
  | zero =>
    intro s
    cases s with
    | nil => rfl
    | cons c rest =>
      have h1 := segMissingNames_lits vars (c :: rest)
      have h2 := segRender_lits vars (c :: rest)
      simp only [List.map] at h1 h2
      simp [scanSubstF, parseSegsF, h1, h2]
  | succ fuel ih =>
    intro s
    cases s with
    | nil => rfl
    | cons c1 rest1 =>
      cases rest1 with
      | nil => rfl
      | cons c2 rest =>
        by_cases hb : c1 = '$' ∧ c2 = '{'
        · simp only [scanSubstF, parseSegsF, if_pos hb]
          cases hsp : splitToken rest with
          | none =>
            simp only [segMissingNames, segRender, ih]
          | some p =>
            obtain ⟨ident, r⟩ := p
            cases hv : VAget vars (String.mk ident) with
            | none =>
              simp only [segMissingNames, segRender, hv, ih, List.map]
            | some v =>
              simp only [segMissingNames, segRender, hv, ih]
        · simp only [scanSubstF, parseSegsF, if_neg hb, segMissingNames, segRender, ih]

/-- Characterization of `substitute_variables` against the spec-side
decomposition. -/
theorem substitute_variables_eq (sql : String) (vars : VA) :
    substitute_variables sql vars =
      (if missingIdents sql vars = [] then Except.ok (renderResolved sql vars)
       else Except.error ((missingIdents sql vars).map SubsError.NotFound)) := by
  unfold substitute_variables missingIdents renderResolved parseTemplate
  rw [scanSubstF_eq]
  rcases h : segMissingNames vars (parseSegsF sql.data.length sql.data) with _ | ⟨n, rest⟩
  · simp [h]
  · simp [h]


/-- C2: for every template and assignment, `substitute_variables` returns an
error exactly when at least one delimiter-bounded token of the template has an
identifier absent from the assignment, and that single error lists every
missing identifier in scan order (duplicates included), not only the first;
when nothing is missing it returns the template with every token replaced by
the assignment value for its identifier, inserted verbatim in one pass: the
output is the rendering of the original template decomposition alone, so
substituted text is never rescanned or recursively expanded. -/
theorem substitute_variables_aggregated (sql : String) (vars : VA) :
    (∀ es, substitute_variables sql vars = Except.error es ↔
      (missingIdents sql vars ≠ [] ∧
        es = (missingIdents sql vars).map SubsError.NotFound)) ∧
    (∀ out, substitute_variables sql vars = Except.ok out ↔
      (missingIdents sql vars = [] ∧ out = renderResolved sql vars)) := by
  constructor
  · intro es
    rw [substitute_variables_eq]
    by_cases h : missingIdents sql vars = []
    · simp [h]
    · rw [if_neg h]
      constructor
      · intro he
        exact ⟨h, ((Except.error.injEq _ _).mp he).symm⟩
      · intro ⟨_, he⟩
        rw [he]
  · intro out
    rw [substitute_variables_eq]
    by_cases h : missingIdents sql vars = []
    · rw [if_pos h]
      constructor
      · intro he
        exact ⟨h, ((Except.ok.injEq _ _).mp he).symm⟩
      · intro ⟨_, he⟩
        rw [he]
    · simp [h]

/-- C2 witness: a concrete template with tokens `a`, `b`, `a` against an
assignment binding only `b` fails with both occurrences of the missing
identifier `a` listed. -/
theorem substitute_variables_aggregated_witness :
    substitute_variables "SELECT $\x7ba\x7d, $\x7bb\x7d, $\x7ba\x7d" [("b", "B")] =
      Except.error [SubsError.NotFound "a", SubsError.NotFound "a"] :=
  ((substitute_variables_aggregated "SELECT $\x7ba\x7d, $\x7bb\x7d, $\x7ba\x7d"
      [("b", "B")]).1 [SubsError.NotFound "a", SubsError.NotFound "a"]).mpr
    ⟨by decide, by decide⟩

/-- C1 counterexample: the override key `ghost` names no variable of the
dashboard (whose only variable is `a`), yet `VariablesConfig::check` returns
success, not an error: the source only logs a warning for such keys. -/
theorem check_missing_key_no_error :
    "ghost" ∈ cexConfig.keys ∧
    "ghost" ∉ cexDashboard.variableNames ∧
    VariablesConfig.check cexConfig cexDashboard = Except.ok () :=
  ⟨by decide, by decide, rfl⟩

/-- C1 amended: `VariablesConfig::check` runs before enumeration but never
fails; for every override configuration and dashboard it returns success, and
every key that names no dashboard variable is merely reported among the
warned keys (the source logs one warning per such key). -/
theorem check_always_succeeds (cfg : VariablesConfig) (d : Dashboard) :
    VariablesConfig.check cfg d = Except.ok () ∧
    (∀ k ∈ cfg.keys, k ∉ d.variableNames → k ∈ cfg.warnedKeys d) := by
  refine ⟨rfl, ?_⟩
  intro k hk hnot
  unfold VariablesConfig.warnedKeys
  rw [List.mem_filter]
  refine ⟨hk, ?_⟩
  simpa using hnot

/-- C1 amended witness: the concrete missing key is warned about and the
check still succeeds. -/
theorem check_always_succeeds_witness :
    VariablesConfig.check cexConfig cexDashboard = Except.ok () ∧
    "ghost" ∈ cexConfig.warnedKeys cexDashboard :=
  ⟨(check_always_succeeds cexConfig cexDashboard).1,
    (check_always_succeeds cexConfig cexDashboard).2 "ghost" (by decide) (by decide)⟩

/-- C5: when the override configuration supplies a list for a variable, the
resolution step of the enumeration returns exactly that list, in order, and
leaves the client state untouched: in particular the call logs do not grow,
so neither `query` nor `query_native` is invoked for that variable, whatever
the network oracle would answer. -/
theorem override_short_circuit (net : Net) (cfg : VariablesConfig) (v : Variable)
    (a : VA) (st : ClientState) (l : List String)
    (h : cfg.get v.name = some l) :
    variantsFor net cfg v a st = (Except.ok l, st) := by
  unfold variantsFor
  rw [h]

/-- C5 witness: a concrete override resolves to exactly the override list with
the state unchanged. -/
theorem override_short_circuit_witness :
    variantsFor cNet cfgV cVar [] st0 = (Except.ok ["o1", "o2"], st0) :=
  override_short_circuit cNet cfgV cVar [] st0 ["o1", "o2"] rfl

/-- C10: for a variable whose datasource is present but not a clickhouse one
(the unsupported variant), a supplied override makes resolution succeed with
the override list and the unsupported-variable error is never raised, because
the enumeration consults the override before dispatching on the datasource;
without the override, `get_variants` would fail fatally on that variable, and
a dashboard consisting of that variable enumerates successfully under the
override. -/
theorem override_preempts_unsupported (net : Net) (cfg : VariablesConfig)
    (v : Variable) (a : VA) (st : ClientState) (ds : DataSource) (l : List String)
    (hds : v.datasource = some ds) (hch : v.is_clickhouse_ds = false)
    (hcfg : cfg.get v.name = some l) :
    variantsFor net cfg v a st = (Except.ok l, st) ∧
    v.get_variants net a st = (Except.error (unsupportedMsg v), st) ∧
    (∀ d : Dashboard, d.templating.list = [v] →
      d.variables_combinations net cfg st =
        (Except.ok (l.map (fun val => VAinsert [] v.name val)), st)) := by
  refine ⟨?_, ?_, ?_⟩
  · unfold variantsFor
    rw [hcfg]
  · unfold Variable.get_variants
    rw [hds]
    simp [hch]
  · intro d hd
    unfold Dashboard.variables_combinations Dashboard.variables
    rw [hd]
    simp [processVariables, processAssignments, variantsFor, hcfg]

/-- C10 witness: a prometheus-datasource variable with an override `[z]`
resolves to `[z]`, would fail without the override, and its single-variable
dashboard enumerates to the single assignment `p = z`. -/
theorem override_preempts_unsupported_witness :
    variantsFor cNet cfgP vP [] st0 = (Except.ok ["z"], st0) ∧
    Variable.get_variants cNet vP [] st0 = (Except.error (unsupportedMsg vP), st0) ∧
    Dashboard.variables_combinations cNet ⟨"d", [], ⟨[vP]⟩⟩ cfgP st0 =
      (Except.ok [[("p", "z")]], st0) := by
  obtain ⟨h1, h2, h3⟩ :=
    override_preempts_unsupported cNet cfgP vP [] st0 ⟨"prometheus"⟩ ["z"]
      rfl (by decide) rfl
  exact ⟨h1, h2, h3 ⟨"d", [], ⟨[vP]⟩⟩ rfl⟩

/-- Unfolding of `ChClient.query` when the cache is not consulted or misses:
the request goes out on the tabular endpoint and the response is parsed and
validated. -/
theorem query_send_eq (net : Net) (st : ClientState) (text : String) (cache : Bool)
    (hl : (if cache then lookupRows st.cache text else none) = none) :
    ChClient.query net text cache st =
      (match net.tsv text with
       | Except.error e => (Except.error e, logTsv st text)
       | Except.ok body =>
         if consistentRows (parseRows body) then
           (if cache then
             (Except.ok (parseRows body), insertRows (logTsv st text) text (parseRows body))
            else (Except.ok (parseRows body), logTsv st text))
         else (Except.error inconsistentMsg, logTsv st text)) := by
  unfold ChClient.query
  rw [hl]

/-- Unfolding of `ChClient.query` on a cache hit: a clone of the stored rows
is returned and the state (including the call logs) is untouched. -/
theorem query_hit_eq (net : Net) (st : ClientState) (text : String)
    (rows : List ResultRow) (hl : lookupRows st.cache text = some rows) :
    ChClient.query net text true st = (Except.ok rows, st) := by
  unfold ChClient.query
  rw [if_pos rfl, hl]

/-- C3: after a successful first cached `query`, the rows are stored under the
exact query text, and a second cached call for the same text returns a clone
of the cached rows with the state completely unchanged: no entry is added to
the network call logs, so no network request is made; across the two calls at
most one tabular network call happened in total, and the native endpoint was
never contacted. -/
theorem query_cached_second_call (net : Net) (st st1 : ClientState) (text : String)
    (rows : List ResultRow)
    (h : ChClient.query net text true st = (Except.ok rows, st1)) :
    lookupRows st1.cache text = some rows ∧
    ChClient.query net text true st1 = (Except.ok rows, st1) ∧
    st1.tsvCalls.length ≤ st.tsvCalls.length + 1 ∧
    st1.nativeCalls = st.nativeCalls := by
  have hstore : lookupRows st1.cache text = some rows ∧
      st1.tsvCalls.length ≤ st.tsvCalls.length + 1 ∧
      st1.nativeCalls = st.nativeCalls := by
    cases hl : lookupRows st.cache text with
    | some resp =>
      rw [query_hit_eq net st text resp hl] at h
      obtain ⟨h1, h2⟩ := Prod.mk.injEq .. ▸ h
      subst h2
      exact ⟨hl.trans (by rw [(Except.ok.injEq _ _).mp h1]), Nat.le_succ _, rfl⟩
    | none =>
      rw [query_send_eq net st text true (by rw [if_pos rfl, hl])] at h
      cases hnet : net.tsv text with
      | error e =>
        rw [hnet] at h
        have h2 : ((Except.error e : Except String (List ResultRow)), logTsv st text) =
            (Except.ok rows, st1) := h
        exact absurd (congrArg Prod.fst h2) (by simp)
      | ok body =>
        rw [hnet] at h
        have h2 : (if consistentRows (parseRows body) = true then
              ((Except.ok (parseRows body) : Except String (List ResultRow)),
                insertRows (logTsv st text) text (parseRows body))
            else (Except.error inconsistentMsg, logTsv st text)) =
            (Except.ok rows, st1) := h
        by_cases hc : consistentRows (parseRows body)
        · rw [if_pos hc] at h2
          obtain ⟨h3, h4⟩ := Prod.mk.injEq .. ▸ h2
          have hrows : parseRows body = rows := (Except.ok.injEq _ _).mp h3
          subst h4
          refine ⟨?_, ?_, rfl⟩
          · simp [insertRows, logTsv, lookupRows, alistGet, hrows]
          · simp [insertRows, logTsv]
        · rw [if_neg hc] at h2
          exact absurd (congrArg Prod.fst h2) (by simp)
  exact ⟨hstore.1, query_hit_eq net st1 text rows hstore.1, hstore.2.1, hstore.2.2⟩

/-- C3 witness: a cold cached query for text `Q` answers, stores and the
repeat call returns the same rows with the same state. -/
theorem query_cached_second_call_witness :
    ChClient.query cNet "Q" true st0 =
      (Except.ok [⟨["x"]⟩], ⟨[("Q", [⟨["x"]⟩])], ["Q"], []⟩) ∧
    ChClient.query cNet "Q" true ⟨[("Q", [⟨["x"]⟩])], ["Q"], []⟩ =
      (Except.ok [⟨["x"]⟩], ⟨[("Q", [⟨["x"]⟩])], ["Q"], []⟩) :=
  ⟨rfl, (query_cached_second_call cNet st0 ⟨[("Q", [⟨["x"]⟩])], ["Q"], []⟩ "Q"
      [⟨["x"]⟩] rfl).2.1⟩

/-- C7: an uncached `query` whose transport succeeds parses the response text
into rows (lines split at the tab delimiter, via `parseRows`) and fails with
the inconsistency error exactly when some row has a column count different
from the first row; the validation predicate holds exactly when every row has
the first row count, so an empty result (zero rows) is always accepted. -/
theorem query_validates_columns (net : Net) (st : ClientState) (text resp : String)
    (h : net.tsv text = Except.ok resp) :
    ChClient.query net text false st =
      ((if consistentRows (parseRows resp) then Except.ok (parseRows resp)
        else Except.error inconsistentMsg), logTsv st text) ∧
    (consistentRows (parseRows resp) = true ↔
      ∀ r ∈ parseRows resp, r.n_cols = ((parseRows resp).headD ⟨[]⟩).n_cols) ∧
    (parseRows resp = [] →
      (ChClient.query net text false st).1 = Except.ok []) := by
  have h1 : ChClient.query net text false st =
      ((if consistentRows (parseRows resp) then Except.ok (parseRows resp)
        else Except.error inconsistentMsg), logTsv st text) := by
    rw [query_send_eq net st text false rfl, h]
    show (if consistentRows (parseRows resp) = true then
        ((Except.ok (parseRows resp) : Except String (List ResultRow)), logTsv st text)
      else (Except.error inconsistentMsg, logTsv st text)) = _
    by_cases hc : consistentRows (parseRows resp)
    · rw [if_pos hc, if_pos hc]
    · rw [if_neg hc, if_neg hc]
  refine ⟨h1, ?_, ?_⟩
  · cases hr : parseRows resp with
    | nil => simp [consistentRows]
    | cons r0 rest =>
      unfold consistentRows
      rw [List.all_eq_true]
      constructor
      · intro hall r hm
        simpa using hall r hm
      · intro hall r hm
        simpa using hall r hm
  · intro hempty
    rw [h1]
    simp [hempty, consistentRows]

/-- C7 witness: a response with rows of 2 and 1 columns is rejected with the
inconsistency error, after one logged network call. -/
theorem query_validates_columns_witness :
    ChClient.query netIncons "Q" false st0 =
      (Except.error inconsistentMsg, ⟨[], ["Q"], []⟩) := by
  have h := (query_validates_columns netIncons st0 "Q" "a\tb\nc" rfl).1
  rw [if_neg (by decide)] at h
  exact h

/-- Totalling a stream of successful chunks yields the sum of their lengths. -/
theorem consumeStream_all_ok (chunks : List (List Nat)) :
    consumeStream (chunks.map Except.ok) = Except.ok (chunks.map List.length).sum := by
  induction chunks with
  | nil => rfl
  | cons c rest ih => simp [consumeStream, ih]

/-- C8: `query_native` never reads nor writes the local result cache (the
cache field is unchanged and the returned value does not depend on it),
always performs the network request (the native call log grows by exactly the
query text, and the tabular log is untouched), and when the transport
delivers a stream of successful chunks it returns the total number of bytes
received after consuming the full stream. -/
theorem query_native_always_executes (net : Net) (st : ClientState) (q : String) :
    (ChClient.query_native net q st).2.cache = st.cache ∧
    (ChClient.query_native net q st).2.tsvCalls = st.tsvCalls ∧
    (ChClient.query_native net q st).2.nativeCalls = st.nativeCalls ++ [q] ∧
    (∀ cache2 : List (String × List ResultRow),
      (ChClient.query_native net q { st with cache := cache2 }).1 =
        (ChClient.query_native net q st).1) ∧
    (∀ chunks : List (List Nat), net.native q = Except.ok (chunks.map Except.ok) →
      (ChClient.query_native net q st).1 = Except.ok (chunks.map List.length).sum) := by
  refine ⟨?_, ?_, ?_, ?_, ?_⟩
  · cases hn : net.native q <;> simp [ChClient.query_native, hn, logNative]
  · cases hn : net.native q <;> simp [ChClient.query_native, hn, logNative]
  · cases hn : net.native q <;> simp [ChClient.query_native, hn, logNative]
  · intro cache2
    cases hn : net.native q <;> simp [ChClient.query_native, hn, logNative]
  · intro chunks hchunks
    simp [ChClient.query_native, hchunks, consumeStream_all_ok]

/-- C8 witness: a native query over a 3-byte and a 1-byte chunk returns 4
bytes, leaves the cache empty and logs exactly the one native call. -/
theorem query_native_always_executes_witness :
    (ChClient.query_native natNet "Q" st0).1 = Except.ok 4 ∧
    (ChClient.query_native natNet "Q" st0).2.cache = [] ∧
    (ChClient.query_native natNet "Q" st0).2.nativeCalls = ["Q"] :=
  ⟨(query_native_always_executes natNet st0 "Q").2.2.2.2 [[10, 20, 30], [40]] rfl,
    (query_native_always_executes natNet st0 "Q").1,
    (query_native_always_executes natNet st0 "Q").2.2.1⟩

/-- Unfolding of `Variable::get_variants` for a clickhouse variable whose
substitution and both client calls succeed: only the shape check remains. -/
theorem get_variants_ch_eq (net : Net) (v : Variable) (a : VA)
    (st st1 st2 : ClientState) (resp : List ResultRow) (subq : String)
    (ds : DataSource) (b : Nat)
    (hds : v.datasource = some ds)
    (hch : v.is_clickhouse_ds = true)
    (hsub : substitute_variables v.query a = Except.ok subq)
    (hq : ChClient.query net subq true st = (Except.ok resp, st1))
    (hn : ChClient.query_native net v.query st1 = (Except.ok b, st2)) :
    v.get_variants net a st =
      (if (resp.head?.map ResultRow.n_cols).getD 0 ≤ 1 then
        ((Except.ok (resp.flatMap ResultRow.cols) : Except String (List String)), st2)
      else (Except.error ensureShapeMsg, st2)) := by
  unfold Variable.get_variants
  rw [hds]
  simp only [hch, if_true]
  rw [hsub]
  simp only []
  rw [hq]
  simp only []
  rw [hn]

/-- Concatenating the columns of single-column rows lists the one column in
row order. -/
theorem flatMap_single_col (resp : List ResultRow)
    (h : ∀ r ∈ resp, r.n_cols = 1) :
    resp.flatMap ResultRow.cols = resp.map (fun r => r.cols.headD "") := by
  induction resp with
  | nil => rfl
  | cons r rest ih =>
    have hr : r.cols.length = 1 := h r (List.mem_cons_self r rest)
    obtain ⟨x, hx⟩ := List.length_eq_one.mp hr
    rw [List.flatMap_cons, List.map_cons, hx,
      ih (fun q hq => h q (List.mem_cons_of_mem r hq))]
    rfl

/-- C6: for a clickhouse-backed variable whose substituted query succeeds and
returns a (consistent) result with more than one column, `get_variants` fails
with the shape fault and produces no candidate values; with at most one
column it succeeds and returns the single column of values in result-row
order. -/
theorem get_variants_shape_check (net : Net) (v : Variable) (a : VA)
    (st st1 st2 : ClientState) (resp : List ResultRow) (subq : String)
    (ds : DataSource) (b : Nat)
    (hds : v.datasource = some ds)
    (hch : v.is_clickhouse_ds = true)
    (hsub : substitute_variables v.query a = Except.ok subq)
    (hq : ChClient.query net subq true st = (Except.ok resp, st1))
    (hn : ChClient.query_native net v.query st1 = (Except.ok b, st2))
    (hcons : consistentRows resp = true) :
    ((∃ r ∈ resp, 1 < r.n_cols) →
      v.get_variants net a st = (Except.error ensureShapeMsg, st2)) ∧
    ((∀ r ∈ resp, r.n_cols ≤ 1) →
      v.get_variants net a st = (Except.ok (resp.flatMap ResultRow.cols), st2)) ∧
    ((∀ r ∈ resp, r.n_cols = 1) →
      resp.flatMap ResultRow.cols = resp.map (fun r => r.cols.headD "")) := by
  have he := get_variants_ch_eq net v a st st1 st2 resp subq ds b hds hch hsub hq hn
  refine ⟨?_, ?_, flatMap_single_col resp⟩
  · rintro ⟨r, hr, hcols⟩
    cases hresp : resp with
    | nil => simp [hresp] at hr
    | cons r0 rest =>
      have hall := List.all_eq_true.mp (hresp ▸ hcons)
      have hr0 : r.n_cols = r0.n_cols := by
        simpa using hall r (hresp ▸ hr)
      have hgt : 1 < r0.n_cols := hr0 ▸ hcols
      rw [he, hresp]
      rw [if_neg (by simpa using hgt)]
  · intro hle
    rw [he]
    cases hresp : resp with
    | nil => rw [if_pos (by simp)]
    | cons r0 rest =>
      rw [if_pos (by simpa using hle r0 (hresp ▸ List.mem_cons_self r0 rest))]

/-- C6 witness: a two-column response makes `get_variants` fail with the
shape fault (concrete oracle answering the row `a TAB b`). -/
theorem get_variants_shape_check_witness :
    Variable.get_variants cNet2 cVar [] st0 =
      (Except.error ensureShapeMsg,
        ⟨[("SELECT 1", [⟨["a", "b"]⟩])], ["SELECT 1"], ["SELECT 1"]⟩) :=
  (get_variants_shape_check cNet2 cVar [] st0
      ⟨[("SELECT 1", [⟨["a", "b"]⟩])], ["SELECT 1"], []⟩
      ⟨[("SELECT 1", [⟨["a", "b"]⟩])], ["SELECT 1"], ["SELECT 1"]⟩
      [⟨["a", "b"]⟩] "SELECT 1" ⟨"grafana-clickhouse-datasource"⟩ 0
      rfl (by decide) rfl rfl rfl (by decide)).1
    ⟨⟨["a", "b"]⟩, by decide, by decide⟩

/-- Log characterization of `ChClient.query`: the native log never grows, and
the tabular log grows by exactly the query text when the cache is skipped or
misses, and not at all on a hit. -/
theorem query_log (net : Net) (text : String) (c : Bool) (st : ClientState) :
    (ChClient.query net text c st).2.nativeCalls = st.nativeCalls ∧
    (ChClient.query net text c st).2.tsvCalls = st.tsvCalls ++
      (match (if c then lookupRows st.cache text else none) with
       | some _ => [] | none => [text]) := by
  cases hl : (if c then lookupRows st.cache text else none) with
  | some rows =>
    cases c with
    | false => simp at hl
    | true =>
      have hq : ChClient.query net text true st = (Except.ok rows, st) :=
        query_hit_eq net st text rows (by simpa using hl)
      simp [hq]
  | none =>
    rw [query_send_eq net st text c hl]
    cases hnet : net.tsv text with
    | error e => simp [logTsv]
    | ok body =>
      by_cases hc : consistentRows (parseRows body) <;>
        cases c <;> simp [hc, logTsv, insertRows]

/-- Log characterization of `ChClient.query_native`: the state change is
exactly the native-log append. -/
theorem query_native_log (net : Net) (q : String) (st : ClientState) :
    (ChClient.query_native net q st).2 = logNative st q := by
  cases hn : net.native q <;> simp [ChClient.query_native, hn]

/-- C9 counterexample: resolving the same clickhouse-backed variable a second
time, with no override, issues only one network call, not two: the first
resolution logs one tabular and one native call, but on the second the
substituted query is already cached, so only a native call is sent (the
tabular log stays at length 1 while the native log reaches 2). -/
theorem warm_native_two_calls_cex :
    (Variable.get_variants cNet cVar [] st0).2.tsvCalls.length = 1 ∧
    (Variable.get_variants cNet cVar [] st0).2.nativeCalls.length = 1 ∧
    (Variable.get_variants cNet cVar []
        ((Variable.get_variants cNet cVar [] st0).2)).1 = Except.ok ["x"] ∧
    (Variable.get_variants cNet cVar []
        ((Variable.get_variants cNet cVar [] st0).2)).2.tsvCalls.length = 1 ∧
    (Variable.get_variants cNet cVar []
        ((Variable.get_variants cNet cVar [] st0).2)).2.nativeCalls.length = 2 :=
  ⟨rfl, rfl, rfl, rfl, rfl⟩

/-- C9 amended: for a clickhouse-backed variable resolved without an
override, `get_variants` performs the cached tabular query on the substituted
text and then always the native call on the original, unsubstituted template,
and nothing else: the final client state is exactly the state after those two
calls, the native log grows by exactly the template, and the tabular log
grows by exactly the substituted text precisely when that text is not already
cached (so the two texts go out, distinct whenever substitution changed the
template, and on a warm cache only the native call is issued). -/
theorem get_variants_call_pattern (net : Net) (v : Variable) (a : VA)
    (st st1 st2 : ClientState) (resp : List ResultRow) (subq : String)
    (ds : DataSource) (b : Nat)
    (hds : v.datasource = some ds)
    (hch : v.is_clickhouse_ds = true)
    (hsub : substitute_variables v.query a = Except.ok subq)
    (hq : ChClient.query net subq true st = (Except.ok resp, st1))
    (hn : ChClient.query_native net v.query st1 = (Except.ok b, st2)) :
    (v.get_variants net a st).2 = st2 ∧
    st2.nativeCalls = st.nativeCalls ++ [v.query] ∧
    st2.tsvCalls = st.tsvCalls ++
      (match lookupRows st.cache subq with
       | some _ => [] | none => [subq]) := by
  have he := get_variants_ch_eq net v a st st1 st2 resp subq ds b hds hch hsub hq hn
  have h1 : st1 = (ChClient.query net subq true st).2 := by rw [hq]
  have h2 : st2 = (ChClient.query_native net v.query st1).2 := by rw [hn]
  have hlog := query_log net subq true st
  refine ⟨?_, ?_, ?_⟩
  · rw [he]
    by_cases hshape : (resp.head?.map ResultRow.n_cols).getD 0 ≤ 1
    · rw [if_pos hshape]
    · rw [if_neg hshape]
  · rw [h2, query_native_log, h1]
    simp [logNative, hlog.1]
  · rw [h2, query_native_log, h1]
    simpa [logNative] using hlog.2

/-- C9 amended witness: on a cold state the concrete resolution sends the
substituted text on the tabular endpoint and the template on the native
endpoint, one call each. -/
theorem get_variants_call_pattern_witness :
    (Variable.get_variants cNet cVar [] st0).2 =
      ⟨[("SELECT 1", [⟨["x"]⟩])], ["SELECT 1"], ["SELECT 1"]⟩ ∧
    (⟨[("SELECT 1", [⟨["x"]⟩])], ["SELECT 1"], ["SELECT 1"]⟩ : ClientState).nativeCalls =
      st0.nativeCalls ++ ["SELECT 1"] :=
  ⟨(get_variants_call_pattern cNet cVar [] st0
      ⟨[("SELECT 1", [⟨["x"]⟩])], ["SELECT 1"], []⟩
      ⟨[("SELECT 1", [⟨["x"]⟩])], ["SELECT 1"], ["SELECT 1"]⟩
      [⟨["x"]⟩] "SELECT 1" ⟨"grafana-clickhouse-datasource"⟩ 0
      rfl (by decide) rfl rfl rfl).1,
    (get_variants_call_pattern cNet cVar [] st0
      ⟨[("SELECT 1", [⟨["x"]⟩])], ["SELECT 1"], []⟩
      ⟨[("SELECT 1", [⟨["x"]⟩])], ["SELECT 1"], ["SELECT 1"]⟩
      [⟨["x"]⟩] "SELECT 1" ⟨"grafana-clickhouse-datasource"⟩ 0
      rfl (by decide) rfl rfl rfl).2.1⟩

/-- A variable without datasource resolves to its option values, in order,
touching neither network nor state. -/
theorem get_variants_static (net : Net) (v : Variable) (a : VA) (st : ClientState)
    (h : v.datasource = none) :
    v.get_variants net a st = (Except.ok (v.options.map VariableOption.value), st) := by
  unfold Variable.get_variants
  rw [h]

/-- With no override configured, a static variable resolves to its option
values with the state unchanged. -/
theorem variantsFor_static (net : Net) (v : Variable) (a : VA) (st : ClientState)
    (h : v.datasource = none) :
    variantsFor net ⟨[]⟩ v a st =
      (Except.ok (v.options.map VariableOption.value), st) := by
  unfold variantsFor
  rw [show VariablesConfig.get ⟨[]⟩ v.name = none from rfl]
  exact get_variants_static net v a st h

/-- Inner enumeration loop over a static variable: every current assignment
is extended with every option value, in order, with the state unchanged. -/
theorem processAssignments_static (net : Net) (v : Variable)
    (hv : v.datasource = none) :
    ∀ (combos : List VA) (st : ClientState),
      processAssignments net ⟨[]⟩ v combos st =
        (Except.ok (combos.flatMap (fun a =>
          (v.options.map VariableOption.value).map
            (fun val => VAinsert a v.name val))), st) := by
  intro combos
  induction combos with
  | nil => intro st; rfl
  | cons a rest ih =>
    intro st
    rw [processAssignments, variantsFor_static net v a st hv]
    simp only []
    rw [ih st]
    simp only [List.flatMap_cons]

/-- Length of a uniform flat map: each element contributes the same number of
extensions. -/
theorem length_flatMap_const {α β γ : Type} (combos : List α) (l : List β)
    (f : α → β → γ) :
    (combos.flatMap (fun a => l.map (f a))).length = combos.length * l.length := by
  induction combos with
  | nil => simp
  | cons a rest ih =>
    simp [List.flatMap_cons, ih, Nat.succ_mul, Nat.add_comm]

/-- Keys after an insert: the new key, or an old key. -/
theorem VAkeys_insert (a : VA) (k val : String) :
    ∀ x ∈ VAkeys (VAinsert a k val), x = k ∨ x ∈ VAkeys a := by
  intro x hx
  unfold VAkeys VAinsert at hx
  simp only [List.map_cons, List.mem_cons] at hx
  rcases hx with rfl | hx
  · exact Or.inl rfl
  · right
    obtain ⟨p, hp, rfl⟩ := List.mem_map.mp hx
    exact List.mem_map_of_mem _ (List.mem_of_mem_filter hp)

/-- Inserting a fresh key grows the assignment by exactly one entry. -/
theorem VAinsert_length (a : VA) (k val : String) (h : ¬ k ∈ VAkeys a) :
    (VAinsert a k val).length = a.length + 1 := by
  unfold VAinsert
  have hf : (a : List (String × String)).filter (fun p => p.1 != k) = a := by
    apply List.filter_eq_self.mpr
    intro p hp
    have hne : p.1 ≠ k := fun he => h (he ▸ List.mem_map_of_mem Prod.fst hp)
    simpa using hne
  simp [hf]

/-- Outer enumeration loop over static-only variables with no overrides: it
succeeds without touching the state, multiplies the working-list size by
every option-list size, and extends every assignment by one entry per
variable (entries stay within the declared names). -/
theorem processVariables_static (net : Net) :
    ∀ (vs : List Variable), (∀ v ∈ vs, v.datasource = none) →
      (vs.map Variable.name).Nodup →
      ∀ (combos : List VA) (st : ClientState),
        (∀ a ∈ combos, ∀ v ∈ vs, ¬ v.name ∈ VAkeys a) →
        ∃ combos2,
          processVariables net ⟨[]⟩ vs combos st = (Except.ok combos2, st) ∧
          combos2.length =
            combos.length * (vs.map (fun v => v.options.length)).prod ∧
          (∀ a2 ∈ combos2, ∃ a ∈ combos, a2.length = a.length + vs.length ∧
            (∀ k ∈ VAkeys a2, k ∈ VAkeys a ∨ k ∈ vs.map Variable.name)) := by
  intro vs
  induction vs with
  | nil =>
    intro _ _ combos st _
    exact ⟨combos, rfl, by simp, fun a2 h2 => ⟨a2, h2, by simp, fun k hk => Or.inl hk⟩⟩
  | cons v vs ih =>
    intro hstatic hnodup combos st hfresh
    rw [processVariables, processAssignments_static net v
      (hstatic v (List.mem_cons_self v vs)) combos st]
    simp only []
    set combos1 := combos.flatMap (fun a =>
      (v.options.map VariableOption.value).map (fun val => VAinsert a v.name val))
      with hcombos1
    have hmem1 : ∀ a1 ∈ combos1, ∃ a ∈ combos, ∃ val, a1 = VAinsert a v.name val := by
      intro a1 h1
      rw [hcombos1] at h1
      obtain ⟨a, ha, h1⟩ := List.mem_flatMap.mp h1
      obtain ⟨val, _, rfl⟩ := List.mem_map.mp h1
      exact ⟨a, ha, val, rfl⟩
    have hnodup1 : (vs.map Variable.name).Nodup := (List.nodup_cons.mp hnodup).2
    have hvnotin : ¬ v.name ∈ vs.map Variable.name := (List.nodup_cons.mp hnodup).1
    have hfresh1 : ∀ a1 ∈ combos1, ∀ u ∈ vs, ¬ u.name ∈ VAkeys a1 := by
      intro a1 h1 u hu hk
      obtain ⟨a, ha, val, rfl⟩ := hmem1 a1 h1
      rcases VAkeys_insert a v.name val u.name hk with he | hk2
      · exact hvnotin (he ▸ List.mem_map_of_mem Variable.name hu)
      · exact hfresh a ha u (List.mem_cons_of_mem v hu) hk2
    obtain ⟨combos2, heq, hlen, helem⟩ :=
      ih (fun u hu => hstatic u (List.mem_cons_of_mem v hu)) hnodup1 combos1 st hfresh1
    refine ⟨combos2, heq, ?_, ?_⟩
    · rw [hlen, hcombos1, length_flatMap_const, List.length_map]
      simp [List.prod_cons, Nat.mul_assoc]
    · intro a2 h2
      obtain ⟨a1, ha1, hlen2, hkeys2⟩ := helem a2 h2
      obtain ⟨a, ha, val, rfl⟩ := hmem1 a1 ha1
      have hfreshv : ¬ v.name ∈ VAkeys a :=
        hfresh a ha v (List.mem_cons_self v vs)
      refine ⟨a, ha, ?_, ?_⟩
      · rw [hlen2, VAinsert_length a v.name val hfreshv]
        simp [List.length_cons]
        omega
      · intro k hk
        rcases hkeys2 k hk with hk1 | hk1
        · rcases VAkeys_insert a v.name val k hk1 with he | hk2
          · exact Or.inr (he ▸ List.mem_cons_self _ _)
          · exact Or.inl hk2
        · exact Or.inr (List.mem_cons_of_mem _ hk1)

/-- C4: for a dashboard whose variables are all static (no datasource), with
unique variable names, enumeration with an empty override configuration
succeeds with the state untouched and returns exactly the product of the
option-list sizes as the number of assignments, each assignment carrying
exactly one entry per variable; an empty variable list yields exactly one
empty assignment. -/
theorem static_enumeration_product (net : Net) (st : ClientState) (d : Dashboard)
    (hstatic : ∀ v ∈ d.variables, v.datasource = none)
    (hnodup : (d.variables.map Variable.name).Nodup) :
    ∃ combos,
      d.variables_combinations net ⟨[]⟩ st = (Except.ok combos, st) ∧
      combos.length = (d.variables.map (fun v => v.options.length)).prod ∧
      (∀ a ∈ combos, a.length = d.variables.length) ∧
      (d.variables = [] → combos = [([] : VA)]) := by
  obtain ⟨combos, heq, hlen, helem⟩ :=
    processVariables_static net d.variables hstatic hnodup [([] : VA)] st
      (by intro a ha v _ hk; rcases List.mem_singleton.mp ha with rfl; simp [VAkeys] at hk)
  refine ⟨combos, heq, by simpa using hlen, ?_, ?_⟩
  · intro a ha
    obtain ⟨a0, ha0, hl, _⟩ := helem a ha
    rcases List.mem_singleton.mp ha0 with rfl
    simpa using hl
  · intro hempty
    rw [hempty] at heq
    have h2 : (Except.ok [([] : VA)] : Except String (List VA)) = Except.ok combos :=
      congrArg Prod.fst heq
    exact ((Except.ok.injEq _ _).mp h2).symm

/-- C4 witness: the concrete two-variable static dashboard (2 and 3 options)
enumerates to exactly 6 assignments of 2 entries each, with the client state
untouched. -/
theorem static_enumeration_product_witness :
    ∃ combos,
      Dashboard.variables_combinations cNet dStat ⟨[]⟩ st0 =
        (Except.ok combos, st0) ∧
      combos.length = 6 ∧ (∀ a ∈ combos, a.length = 2) := by
  obtain ⟨combos, h1, h2, h3, _⟩ :=
    static_enumeration_product cNet st0 dStat (by decide) (by decide)
  exact ⟨combos, h1, h2, h3⟩

end ChGrafanaCache
